import Mathlib

/-!
Verification of the `aptest` run coordinator (`src/main.rs`).

The development shallowly embeds the program:

* The Readiness Scanner `find_mint_path` is a pure string function and is
  translated verbatim onto `List Char` (Rust `str::split`, `skip_while`,
  `nth`, `split('\n').next()`, `trim`, `retain`).
* The coordinator (`main`, `start_node`, `publish`, `cleanup`) performs
  external I/O.  Every external operation's outcome is a field of an
  environment record `Env`; the coordinator becomes a deterministic
  function from `Env` to the list of performed operations (a trace of
  `Ev` events) together with how the process terminates (`Term`).
  A Rust `.expect(..)` on a failed operation is a panic: the process
  aborts (exit code 101) without running any further code; this is
  modelled by `Term.panicked`, kept distinct from `Term.exited 1`
  produced by `std::process::exit(1)` in the `pretty_expect!` /
  `cleanup_expect!` macros.  The fixed `sleep` calls are pure delays with
  no observable effect and carry no event.
-/

/-- Rust `char::is_whitespace` (the Unicode White_Space property),
used by `str::trim`. -/
def isRustWhitespace (c : Char) : Bool :=
  c.val = 0x09 || c.val = 0x0A || c.val = 0x0B || c.val = 0x0C || c.val = 0x0D ||
  c.val = 0x20 || c.val = 0x85 || c.val = 0xA0 || c.val = 0x1680 ||
  (0x2000 ≤ c.val && c.val ≤ 0x200A) || c.val = 0x2028 || c.val = 0x2029 ||
  c.val = 0x202F || c.val = 0x205F || c.val = 0x3000

/-- Rust `str::split(c)`: the list of (possibly empty) pieces of the
string between occurrences of the separator character `c`. -/
def splitOnChar (c : Char) : List Char → List (List Char)
  | [] => [[]]
  | x :: xs =>
    match splitOnChar c xs with
    | [] => [[]]
    | s :: ss => if x = c then [] :: s :: ss else (x :: s) :: ss

/-- `listStarts n h`: `n` is a prefix of `h` (helper for substring search). -/
def listStarts : List Char → List Char → Bool
  | [], _ => true
  | _ :: _, [] => false
  | a :: n, b :: h => a = b && listStarts n h

/-- Rust `str::contains(pat)` for a string pattern: `listHas n h` holds
iff `n` occurs as a contiguous substring of `h`. -/
def listHas (n : List Char) : List Char → Bool
  | [] => n.isEmpty
  | b :: h => listStarts n (b :: h) || listHas n h

/-- Rust `str::trim`: remove leading and trailing whitespace. -/
def trimChars (l : List Char) : List Char :=
  ((l.dropWhile isRustWhitespace).reverse.dropWhile isRustWhitespace).reverse

/-- The fixed marker phrase scanned for in the validator's output. -/
def marker : List Char := "Aptos root key path".toList

/-- `find_mint_path` (src/main.rs:353-366): scan the node output for the
mint key path.  Rust:
`line.split(':').skip_while(|x| !x.contains("Aptos root key path")).nth(1)`
then `.split('\n').next().unwrap().trim()` and `retain(|x| x != '"')`.
The `.expect(..)` on the missing marker is modelled by `none`. -/
def find_mint_path (line : List Char) : Option (List Char) :=
  match ((splitOnChar ':' line).dropWhile (fun seg => !(listHas marker seg)))[1]? with
  | none => none
  | some seg =>
      some ((trimChars ((splitOnChar '\n' seg).headD [])).filter
        (fun c => decide (c ≠ '\"')))

/-- An observable operation performed by the coordinator, in program
order.  `writeLog` carries the text written to `validator.log`. -/
inductive Ev where
  | compileRun
  | spawnNode
  | readSnapshot
  | findMint
  | spawnFaucet
  | fetchAccount
  | fundRun
  | publishRun
  | recvWait
  | spawnE2e
  | waitE2e
  | cleanupCall
  | killNode
  | waitNode
  | killFaucet
  | waitFaucet
  | createLog
  | writeLog (content : List Char)
deriving DecidableEq

/-- How the coordinator process terminates.  `exited n` is
`std::process::exit(n)` (or falling off the end of `main`, `n = 0`);
`panicked` is a Rust panic from a failed `.expect(..)`, which aborts the
process with exit code 101 without executing any further program code. -/
inductive Term where
  | exited (code : Nat)
  | panicked
deriving DecidableEq

deriving instance DecidableEq for Except

/-- The resolved run configuration (the `Args` struct) together with the
outcome of every external operation the run may perform.  A `Bool`
field `…_ok` is whether the operation succeeds; an `Option Bool` status
field is `none` when obtaining the exit status itself fails (Rust
`io::Error`, turned into a panic by `.expect`) and `some b` when the
invoked tool exits with success flag `b`. -/
structure Env where
  no_compile : Bool
  no_publish : Bool
  no_faucet : Bool
  interactive : Bool
  log_node : Bool
  ctrlc_ok : Bool
  compile_status : Option Bool
  node_spawn_ok : Bool
  read_ok : Bool
  snapshot : List Char
  faucet_spawn_ok : Bool
  fetch_ok : Bool
  fund_status : Option Bool
  publish_status : Option Bool
  recv_ok : Bool
  e2e_spawn_ok : Bool
  e2e_wait_ok : Bool
  kill_node_ok : Bool
  wait_node_ok : Bool
  node_drain : List Char
  kill_faucet_ok : Bool
  wait_faucet_ok : Bool
  faucet_drain : List Char
  log_create_ok : Bool
  log_write_ok : Bool

/-- `cleanup` (src/main.rs:179-215).  Arguments mirror the
`(Child, Option Child, String)` tuple: whether a faucet child is
present, and the scanned bootstrap output.  Every step is guarded by
`.expect(..)`, so the first failing step panics and no later step runs;
the returned `Bool` is `true` iff `cleanup` returned to its caller.
When logging is requested the written file content is the scanned
output, then the drained validator stdout, then the drained faucet
stderr (empty when there is no faucet). -/
def cleanup (env : Env) (hasFaucet : Bool) (scanned : List Char) :
    List Ev × Bool :=
  if env.kill_node_ok = false then ([.cleanupCall, .killNode], false)
  else if env.wait_node_ok = false then
    ([.cleanupCall, .killNode, .waitNode], false)
  else if hasFaucet = true then
    if env.kill_faucet_ok = false then
      ([.cleanupCall, .killNode, .waitNode, .killFaucet], false)
    else if env.wait_faucet_ok = false then
      ([.cleanupCall, .killNode, .waitNode, .killFaucet, .waitFaucet], false)
    else if env.log_node = true then
      if env.log_create_ok = false then
        ([.cleanupCall, .killNode, .waitNode, .killFaucet, .waitFaucet,
          .createLog], false)
      else
        ([.cleanupCall, .killNode, .waitNode, .killFaucet, .waitFaucet,
          .createLog,
          .writeLog (scanned ++ env.node_drain ++ env.faucet_drain)],
         env.log_write_ok)
    else
      ([.cleanupCall, .killNode, .waitNode, .killFaucet, .waitFaucet], true)
  else
    if env.log_node = true then
      if env.log_create_ok = false then
        ([.cleanupCall, .killNode, .waitNode, .createLog], false)
      else
        ([.cleanupCall, .killNode, .waitNode, .createLog,
          .writeLog (scanned ++ env.node_drain)], env.log_write_ok)
    else
      ([.cleanupCall, .killNode, .waitNode], true)

/-- `start_node` (src/main.rs:219-287).  Validator spawn failure goes
through `pretty_expect!` (exit 1); a failed 450-byte snapshot read and a
missing marker go through plain `.expect` (panic); faucet spawn failure
goes through `cleanup_expect!`, which runs `cleanup` on
`(node_child, None, node_output)` and then exits 1 (a panic inside that
`cleanup` aborts instead).  On success the returned handle records
whether a faucet child exists and the scanned snapshot text. -/
def start_node (env : Env) : List Ev × Except Term (Bool × List Char) :=
  if env.node_spawn_ok = false then ([.spawnNode], .error (.exited 1))
  else if env.read_ok = false then
    ([.spawnNode, .readSnapshot], .error .panicked)
  else
    match find_mint_path env.snapshot with
    | none => ([.spawnNode, .readSnapshot, .findMint], .error .panicked)
    | some _ =>
      if env.no_faucet = false then
        if env.faucet_spawn_ok = false then
          ([.spawnNode, .readSnapshot, .findMint, .spawnFaucet]
             ++ (cleanup env false env.snapshot).1,
           .error (if (cleanup env false env.snapshot).2 = true
                   then .exited 1 else .panicked))
        else
          ([.spawnNode, .readSnapshot, .findMint, .spawnFaucet],
           .ok (true, env.snapshot))
      else
        ([.spawnNode, .readSnapshot, .findMint], .ok (false, env.snapshot))

/-- The failure message produced when the publish invocation reports a
non-zero exit status. -/
def pubFailMsg : List Char := "Aptos reports publish failed".toList

/-- `publish` (src/main.rs:291-326).  `fetch_account` and the two
`status().expect(..)` calls panic when the underlying operation errors;
the funding invocation's exit status value is read but never inspected;
the publish invocation's exit status decides the `Result`. -/
def publish (env : Env) : List Ev × Except Term (Option (List Char)) :=
  if env.fetch_ok = false then ([.fetchAccount], .error .panicked)
  else
    match env.fund_status with
    | none => ([.fetchAccount, .fundRun], .error .panicked)
    | some _ =>
      match env.publish_status with
      | none => ([.fetchAccount, .fundRun, .publishRun], .error .panicked)
      | some true => ([.fetchAccount, .fundRun, .publishRun], .ok none)
      | some false =>
        ([.fetchAccount, .fundRun, .publishRun], .ok (some pubFailMsg))

/-- The tail of `main` from the deployment outcome on
(src/main.rs:137-176): handle the deployment result (`dres`), then the
interactive wait or the e2e test run, then the final `cleanup` and
normal exit.  `pre` is the trace accumulated so far; `hf`/`sc` are the
network handle's faucet flag and scanned bootstrap output passed on to
`cleanup`. -/
def mainTail (env : Env) (hf : Bool) (sc : List Char) (pre : List Ev)
    (dres : Except Term (Option (List Char))) : List Ev × Term :=
  match dres with
  | .error tm => (pre, tm)
  | .ok (some _) =>
    (pre ++ (cleanup env hf sc).1,
     if (cleanup env hf sc).2 = true then .exited 1 else .panicked)
  | .ok none =>
    if env.interactive = true then
      if env.recv_ok = false then (pre ++ [.recvWait], .panicked)
      else
        (pre ++ [.recvWait] ++ (cleanup env hf sc).1,
         if (cleanup env hf sc).2 = true then .exited 0 else .panicked)
    else
      if env.e2e_spawn_ok = false then
        (pre ++ [.spawnE2e] ++ (cleanup env hf sc).1,
         if (cleanup env hf sc).2 = true then .exited 1 else .panicked)
      else if env.e2e_wait_ok = false then
        (pre ++ [.spawnE2e, .waitE2e], .panicked)
      else
        (pre ++ [.spawnE2e, .waitE2e] ++ (cleanup env hf sc).1,
         if (cleanup env hf sc).2 = true then .exited 0 else .panicked)

/-- `main` (named `mainRun` here, since Lean reserves `main`), `Run` subcommand path (src/main.rs:99-176).  Phases in
order: install the Ctrl-C handler, compile (unless skipped; non-zero
compile status exits 1 with no cleanup, an error obtaining the status
panics), `start_node`, publish (unless skipped; a reported deployment
failure runs `cleanup` then exits 1), then either the interactive wait
(`recv` panics on channel failure) or the e2e test run (spawn failure
runs `cleanup` then exits 1 via `cleanup_expect!`; a failed `wait`
panics), and finally `cleanup` followed by normal exit 0. -/
def mainRun (env : Env) : List Ev × Term :=
  if env.ctrlc_ok = false then ([], .panicked)
  else
    match (if env.no_compile = true then (([] : List Ev), (none : Option Term))
           else
             match env.compile_status with
             | none => ([.compileRun], some .panicked)
             | some true => ([.compileRun], none)
             | some false => ([.compileRun], some (.exited 1))) with
    | (t0, some tm) => (t0, tm)
    | (t0, none) =>
      match start_node env with
      | (t1, .error tm) => (t0 ++ t1, tm)
      | (t1, .ok (hasFaucet, scanned)) =>
        match (if env.no_publish = true then ([], .ok none) else publish env) with
        | (t2, dres) => mainTail env hasFaucet scanned (t0 ++ t1 ++ t2) dres

/-- Scenario A startup text from the repository's own unit test. -/
def scenA : List Char :=
  "Aptos root key path: \"/home/user/.aptos/mint.key\"\nWaypoint: stuff".toList

/-- A fully successful environment: every external operation succeeds,
no phase is skipped, non-interactive, logging off. -/
def baseEnv : Env where
  no_compile := false
  no_publish := false
  no_faucet := false
  interactive := false
  log_node := false
  ctrlc_ok := true
  compile_status := some true
  node_spawn_ok := true
  read_ok := true
  snapshot := scenA
  faucet_spawn_ok := true
  fetch_ok := true
  fund_status := some true
  publish_status := some true
  recv_ok := true
  e2e_spawn_ok := true
  e2e_wait_ok := true
  kill_node_ok := true
  wait_node_ok := true
  node_drain := "node out".toList
  kill_faucet_ok := true
  wait_faucet_ok := true
  faucet_drain := "faucet err".toList
  log_create_ok := true
  log_write_ok := true

/-- A deployment-failure run whose teardown's validator kill fails. -/
def envDeployFailKillFail : Env :=
  { baseEnv with publish_status := some false, kill_node_ok := false }

/-- Count of entries into the teardown routine in a trace. -/
def isCleanupCall : Ev → Bool
  | .cleanupCall => true
  | _ => false

/-- Number of `cleanup` invocations recorded in a trace. -/
def ncleanup (t : List Ev) : Nat := t.countP isCleanupCall

/-- The contents of the log files written during a trace. -/
def logWrites (t : List Ev) : List (List Char) :=
  t.filterMap (fun e => match e with | .writeLog c => some c | _ => none)

/-- Recogniser for the log-file creation event. -/
def isCreateLog : Ev → Bool
  | .createLog => true
  | _ => false

/-- The compile phase lets the run proceed: skipped, or exit status 0. -/
def compileOk (env : Env) : Prop :=
  env.no_compile = true ∨ env.compile_status = some true

/-- Bootstrap succeeds: validator spawns, the snapshot is read, the
marker is found, and the faucet (when requested) spawns. -/
def bootOk (env : Env) : Prop :=
  env.node_spawn_ok = true ∧ env.read_ok = true
    ∧ (find_mint_path env.snapshot).isSome = true
    ∧ (env.no_faucet = true ∨ env.faucet_spawn_ok = true)

/-- The deploy phase reports success: skipped, or the account is read,
both tool invocations yield an exit status, and publish reports 0. -/
def deployOk (env : Env) : Prop :=
  env.no_publish = true
    ∨ (env.fetch_ok = true ∧ env.fund_status.isSome = true
        ∧ env.publish_status = some true)

/-- Every teardown step succeeds. -/
def cleanupOk (env : Env) : Prop :=
  env.kill_node_ok = true ∧ env.wait_node_ok = true
    ∧ env.kill_faucet_ok = true ∧ env.wait_faucet_ok = true
    ∧ env.log_create_ok = true ∧ env.log_write_ok = true

/-- Some teardown step that kills or waits on a child process fails
(the faucet steps only exist when a faucet child is present). -/
def cleanupStepFails (env : Env) (hf : Bool) : Prop :=
  env.kill_node_ok = false ∨ env.wait_node_ok = false
    ∨ (hf = true ∧ (env.kill_faucet_ok = false ∨ env.wait_faucet_ok = false))

/-! ### Generic facts about the scanner's building blocks -/

theorem splitOnChar_ne_nil (c : Char) (l : List Char) : splitOnChar c l ≠ [] := by
  cases l with
  | nil => simp [splitOnChar]
  | cons x xs =>
    simp only [splitOnChar]
    cases h : splitOnChar c xs with
    | nil => simp
    | cons s ss =>
      by_cases hx : x = c <;> simp [hx]

theorem headD_splitOnChar_pre (c : Char) (l : List Char) :
    ∃ v, l = (splitOnChar c l).headD [] ++ v := by
  induction l with
  | nil => exact ⟨[], by simp [splitOnChar]⟩
  | cons x xs ih =>
    simp only [splitOnChar]
    cases h : splitOnChar c xs with
    | nil => exact absurd h (splitOnChar_ne_nil c xs)
    | cons s ss =>
      by_cases hx : x = c
      · exact ⟨x :: xs, by simp [hx]⟩
      · obtain ⟨v, hv⟩ := ih
        rw [h] at hv
        exact ⟨v, by simp [hx]; exact hv⟩

theorem mem_splitOnChar_sub (c : Char) (l seg : List Char)
    (h : seg ∈ splitOnChar c l) : ∃ u v, l = u ++ seg ++ v := by
  induction l with
  | nil =>
    simp [splitOnChar] at h
    exact ⟨[], [], by simp [h]⟩
  | cons x xs ih =>
    simp only [splitOnChar] at h
    cases hs : splitOnChar c xs with
    | nil => exact absurd hs (splitOnChar_ne_nil c xs)
    | cons s ss =>
      rw [hs] at h
      by_cases hx : x = c
      · simp [hx] at h
        rcases h with h | h
        · exact ⟨[], x :: xs, by simp [h]⟩
        · have : seg ∈ splitOnChar c xs := by rw [hs]; exact List.mem_cons.mpr h
          obtain ⟨u, v, huv⟩ := ih this
          exact ⟨x :: u, v, by simp [huv]⟩
      · simp [hx] at h
        rcases h with h | h
        · subst h
          obtain ⟨v, hv⟩ := headD_splitOnChar_pre c xs
          rw [hs] at hv
          simp at hv
          exact ⟨[], v, by simp [hv]⟩
        · have : seg ∈ splitOnChar c xs := by rw [hs]; exact List.mem_cons_of_mem s h
          obtain ⟨u, v, huv⟩ := ih this
          exact ⟨x :: u, v, by simp [huv]⟩

theorem listStarts_iff (n h : List Char) :
    listStarts n h = true ↔ ∃ t, h = n ++ t := by
  induction n generalizing h with
  | nil => simp [listStarts]
  | cons a n ih =>
    cases h with
    | nil =>
      simp [listStarts]
    | cons b hs =>
      simp only [listStarts, Bool.and_eq_true, decide_eq_true_eq, ih]
      constructor
      · rintro ⟨rfl, t, rfl⟩
        exact ⟨t, rfl⟩
      · rintro ⟨t, ht⟩
        simp at ht
        exact ⟨ht.1.symm ▸ rfl, t, ht.2⟩

theorem listHas_iff (n h : List Char) :
    listHas n h = true ↔ ∃ u v, h = u ++ n ++ v := by
  induction h with
  | nil =>
    simp [listHas, List.isEmpty_iff]
  | cons b hs ih =>
    simp only [listHas, Bool.or_eq_true, listStarts_iff, ih]
    constructor
    · rintro (⟨t, ht⟩ | ⟨u, v, huv⟩)
      · exact ⟨[], t, by simp [ht]⟩
      · exact ⟨b :: u, v, by simp [huv]⟩
    · rintro ⟨u, v, huv⟩
      cases u with
      | nil => exact Or.inl ⟨v, by simpa using huv⟩
      | cons a u =>
        simp at huv
        exact Or.inr ⟨u, v, by simp [huv.2]⟩

theorem listHas_within (n s u v : List Char) (h : listHas n s = true) :
    listHas n (u ++ s ++ v) = true := by
  rw [listHas_iff] at h ⊢
  obtain ⟨a, b, rfl⟩ := h
  exact ⟨u ++ a, b ++ v, by simp⟩

theorem listHas_here (n a b : List Char) : listHas n (a ++ n ++ b) = true :=
  (listHas_iff n _).mpr ⟨a, b, rfl⟩

theorem marker_ne_nil : marker ≠ [] := by decide

theorem colon_not_mem_marker : ∀ x ∈ marker, x ≠ ':' := by decide

theorem splitOnChar_no_sep (c : Char) (m : List Char) (h : ∀ x ∈ m, x ≠ c) :
    splitOnChar c m = [m] := by
  induction m with
  | nil => simp [splitOnChar]
  | cons x xs ih =>
    have hx : x ≠ c := h x (by simp)
    have ihs : splitOnChar c xs = [xs] := ih (fun a ha => h a (by simp [ha]))
    simp [splitOnChar, ihs, hx]

theorem splitOnChar_append_sep (c : Char) (a b : List Char) :
    splitOnChar c (a ++ c :: b) = splitOnChar c a ++ splitOnChar c b := by
  induction a with
  | nil =>
    simp only [List.nil_append, splitOnChar]
    cases hb : splitOnChar c b with
    | nil => exact absurd hb (splitOnChar_ne_nil c b)
    | cons s ss => simp
  | cons x xs ih =>
    cases hxs : splitOnChar c xs with
    | nil => exact absurd hxs (splitOnChar_ne_nil c xs)
    | cons s ss =>
      cases hb : splitOnChar c b with
      | nil => exact absurd hb (splitOnChar_ne_nil c b)
      | cons r rs =>
        rw [List.cons_append]
        simp only [splitOnChar]
        rw [ih, hxs, hb]
        by_cases hx : x = c <;> simp [hx]

theorem splitOnChar_append_no_sep (c : Char) (a m : List Char)
    (h : ∀ x ∈ m, x ≠ c) :
    ∃ A la, splitOnChar c a = A ++ [la] ∧
      splitOnChar c (a ++ m) = A ++ [la ++ m] := by
  induction a with
  | nil =>
    exact ⟨[], [], by simp [splitOnChar], by simp [splitOnChar_no_sep c m h]⟩
  | cons x xs ih =>
    obtain ⟨A, la, h1, h2⟩ := ih
    by_cases hx : x = c
    · refine ⟨[] :: A, la, ?_, ?_⟩
      · simp only [splitOnChar]
        rw [h1]
        cases A with
        | nil => simp [hx]
        | cons s ss => simp [hx]
      · rw [List.cons_append]
        simp only [splitOnChar]
        rw [h2]
        cases A with
        | nil => simp [hx]
        | cons s ss => simp [hx]
    · cases A with
      | nil =>
        simp only [List.nil_append] at h1 h2
        refine ⟨[], x :: la, ?_, ?_⟩
        · simp only [splitOnChar]
          rw [h1]
          simp [hx]
        · rw [List.cons_append]
          simp only [splitOnChar]
          rw [h2]
          simp [hx]
      | cons s ss =>
        refine ⟨(x :: s) :: ss, la, ?_, ?_⟩
        · simp only [splitOnChar]
          rw [h1]
          simp [hx]
        · rw [List.cons_append]
          simp only [splitOnChar]
          rw [h2]
          simp [hx]

theorem headD_splitOnChar_eq_takeWhile (c : Char) (l : List Char) :
    (splitOnChar c l).headD [] = l.takeWhile (fun a => !(decide (a = c))) := by
  induction l with
  | nil => simp [splitOnChar]
  | cons x xs ih =>
    simp only [splitOnChar]
    cases hxs : splitOnChar c xs with
    | nil => exact absurd hxs (splitOnChar_ne_nil c xs)
    | cons s ss =>
      rw [hxs] at ih
      by_cases hx : x = c
      · simp [hx, List.takeWhile_cons]
      · simp [hx, List.takeWhile_cons]
        exact ih

theorem takeWhile_all_append (p : Char → Bool) (u w : List Char)
    (h : ∀ a ∈ u, p a = true) :
    (u ++ w).takeWhile p = u ++ w.takeWhile p := by
  induction u with
  | nil => simp
  | cons x xs ih =>
    have hx : p x = true := h x (by simp)
    simp [List.takeWhile_cons, hx, ih (fun a ha => h a (by simp [ha]))]

theorem dropWhile_all_append (p : List Char → Bool) (u w : List (List Char))
    (h : ∀ a ∈ u, p a = true) :
    (u ++ w).dropWhile p = w.dropWhile p := by
  induction u with
  | nil => simp
  | cons x xs ih =>
    have hx : p x = true := h x (by simp)
    simp [List.dropWhile_cons, hx, ih (fun a ha => h a (by simp [ha]))]


/-- C3 counterexample: a quoted path that itself contains the field
separator `':'` is truncated at the separator, so the claim as stated
(the full path is returned) is false on `"a:b"`. -/
theorem C3_colon_path_cex :
    find_mint_path ("Aptos root key path: \"a:b\"\nrest".toList) = some ("a".toList)
      ∧ ("a".toList : List Char) ≠ "a:b".toList := by
  constructor
  · decide
  · decide

/-- C3 (corrected): for every startup text in which the first occurrence
of the marker phrase is followed by the field separator and a quoted
path ending at the next line break, and the path contains no `':'`
(the amendment), no quote and no newline, `find_mint_path` returns
exactly that path with the surrounding space and quotes stripped. -/
theorem C3_extract_credential_path_amended (p s rest : List Char)
    (hp : listHas marker p = false)
    (hs1 : ∀ x ∈ s, x ≠ ':')
    (hs2 : ∀ x ∈ s, x ≠ '\n')
    (hs3 : ∀ x ∈ s, x ≠ '\"') :
    find_mint_path (p ++ (marker ++ (':' :: ' ' :: '\"' :: (s ++ ('\"' :: '\n' :: rest)))))
      = some s := by
  have hseg : ∀ a ∈ splitOnChar ':' p, listHas marker a = false := by
    intro a ha
    rcases mem_splitOnChar_sub ':' p a ha with ⟨u, v, huv⟩
    cases hya : listHas marker a with
    | false => rfl
    | true =>
      have h2 : listHas marker p = true := by
        rw [huv]; exact listHas_within marker a u v hya
      rw [hp] at h2
      exact Bool.noConfusion h2
  obtain ⟨A, la, hA1, hA2⟩ := splitOnChar_append_no_sep ':' p marker colon_not_mem_marker
  have hAq : ∀ a ∈ A, (fun seg => !(listHas marker seg)) a = true := by
    intro a ha
    have : a ∈ splitOnChar ':' p := by rw [hA1]; exact List.mem_append_left _ ha
    simp [hseg a this]
  have hassoc : p ++ (marker ++ (':' :: ' ' :: '\"' :: (s ++ ('\"' :: '\n' :: rest))))
      = (p ++ marker) ++ ':' :: (' ' :: '\"' :: (s ++ ('\"' :: '\n' :: rest))) := by
    simp [List.append_assoc]
  rw [hassoc]
  simp only [find_mint_path]
  rw [splitOnChar_append_sep, hA2]
  have hlam : listHas marker (la ++ marker) = true := by
    have := listHas_here marker la []
    simpa using this
  have hdrop : ((A ++ [la ++ marker]) ++
        splitOnChar ':' (' ' :: '\"' :: (s ++ ('\"' :: '\n' :: rest)))).dropWhile
        (fun seg => !(listHas marker seg))
      = (la ++ marker) :: splitOnChar ':' (' ' :: '\"' :: (s ++ ('\"' :: '\n' :: rest))) := by
    rw [List.append_assoc]
    rw [dropWhile_all_append _ A _ hAq]
    rw [List.singleton_append, List.dropWhile_cons]
    simp [hlam]
  rw [hdrop]
  cases hR : splitOnChar ':' (' ' :: '\"' :: (s ++ ('\"' :: '\n' :: rest))) with
  | nil => exact absurd hR (splitOnChar_ne_nil _ _)
  | cons r0 rs =>
    have hr0 : r0 = ' ' :: '\"' :: (s ++ ('\"' :: '\n' ::
        List.takeWhile (fun a => !(decide (a = ':'))) rest)) := by
      have := headD_splitOnChar_eq_takeWhile ':' (' ' :: '\"' :: (s ++ ('\"' :: '\n' :: rest)))
      rw [hR] at this
      simp only [List.headD_cons] at this
      rw [this]
      simp only [List.takeWhile_cons]
      have e1 : (!(decide ((' ' : Char) = ':'))) = true := by decide
      have e2 : (!(decide (('\"' : Char) = ':'))) = true := by decide
      have e3 : (!(decide (('\n' : Char) = ':'))) = true := by decide
      rw [e1]
      simp only [if_true]
      rw [e2]
      simp only [if_true]
      rw [takeWhile_all_append _ s _ (by intro a ha; simp [hs1 a ha])]
      simp only [List.takeWhile_cons]
      rw [e2, e3]
      simp
    simp only [List.getElem?_cons_succ, List.getElem?_cons_zero]
    have hhead : (splitOnChar '\n' r0).headD []
        = ' ' :: '\"' :: (s ++ ['\"']) := by
      rw [headD_splitOnChar_eq_takeWhile, hr0]
      simp only [List.takeWhile_cons]
      have e1 : (!(decide ((' ' : Char) = '\n'))) = true := by decide
      have e2 : (!(decide (('\"' : Char) = '\n'))) = true := by decide
      have e3 : (!(decide (('\n' : Char) = '\n'))) = false := by decide
      rw [e1]; simp only [if_true]
      rw [e2]; simp only [if_true]
      rw [takeWhile_all_append _ s _ (by intro a ha; simp [hs2 a ha])]
      simp
    have w1 : isRustWhitespace ' ' = true := by decide
    have w2 : isRustWhitespace '\"' = false := by decide
    have d1 : List.dropWhile isRustWhitespace (' ' :: '\"' :: (s ++ ['\"']))
        = '\"' :: (s ++ ['\"']) := by
      simp [List.dropWhile_cons, w1, w2]
    have d2 : ('\"' :: (s ++ ['\"'])).reverse = '\"' :: (s.reverse ++ ['\"']) := by
      simp
    have d3 : List.dropWhile isRustWhitespace ('\"' :: (s.reverse ++ ['\"']))
        = '\"' :: (s.reverse ++ ['\"']) := by
      simp [List.dropWhile_cons, w2]
    have htrim : trimChars (' ' :: '\"' :: (s ++ ['\"'])) = '\"' :: (s ++ ['\"']) := by
      unfold trimChars
      rw [d1, d2, d3]
      simp
    have e4 : (decide (('\"' : Char) ≠ '\"')) = false := by decide
    have hfil : List.filter (fun c => decide (c ≠ '\"')) ('\"' :: (s ++ ['\"'])) = s := by
      simp only [List.filter_cons, List.filter_append, e4, if_false]
      rw [List.filter_eq_self.mpr (by intro a ha; simpa using hs3 a ha)]
      simp
    show some ((trimChars ((splitOnChar '\n' r0).headD [])).filter
        (fun c => decide (c ≠ '\"'))) = some s
    rw [hhead, htrim, hfil]


/-- C3 witness: Scenario A, the repository's own unit test input. -/
theorem C3_extract_credential_path_amended_witness :
    find_mint_path scenA = some ("/home/user/.aptos/mint.key".toList) := by
  have h := C3_extract_credential_path_amended []
    ("/home/user/.aptos/mint.key".toList) ("Waypoint: stuff".toList)
    (by decide) (by decide) (by decide) (by decide)
  rw [show scenA = [] ++ (marker ++ (':' :: ' ' :: '\"' ::
      ("/home/user/.aptos/mint.key".toList ++
        ('\"' :: '\n' :: "Waypoint: stuff".toList)))) from by decide]
  exact h

/-- C4 (confirmed): for every startup text that does not contain the
marker phrase, `find_mint_path` fails (returns `none`, the Rust
`.expect` panic) and never returns any path. -/
theorem C4_no_marker_not_found (line : List Char)
    (h : listHas marker line = false) :
    find_mint_path line = none := by
  have hseg : ∀ a ∈ splitOnChar ':' line,
      (fun seg => !(listHas marker seg)) a = true := by
    intro a ha
    rcases mem_splitOnChar_sub ':' line a ha with ⟨u, v, huv⟩
    cases hya : listHas marker a with
    | false => simp [hya]
    | true =>
      have h2 : listHas marker line = true := by
        rw [huv]; exact listHas_within marker a u v hya
      rw [h] at h2
      exact Bool.noConfusion h2
  simp only [find_mint_path]
  rw [List.dropWhile_eq_nil_iff.mpr (by intro a ha; simpa using hseg a ha)]
  simp

/-- C4 witness: a concrete marker-free startup text. -/
theorem C4_no_marker_not_found_witness :
    listHas marker ("Waypoint: stuff\nChainId: 4".toList) = false
      ∧ find_mint_path ("Waypoint: stuff\nChainId: 4".toList) = none :=
  ⟨by decide, C4_no_marker_not_found _ (by decide)⟩

/-- If every element of a list but possibly the last satisfies the
dropped predicate, at most one element survives `dropWhile`. -/
theorem dropWhile_dropLast_length {α : Type} (q : α → Bool) (l : List α)
    (h : ∀ a ∈ l.dropLast, q a = true) : (l.dropWhile q).length ≤ 1 := by
  induction l with
  | nil => simp
  | cons x xs ih =>
    cases xs with
    | nil =>
      rw [List.dropWhile_cons]
      by_cases hx : q x = true <;> simp [hx]
    | cons y ys =>
      have hx : q x = true := h x (by simp)
      rw [List.dropWhile_cons, hx]
      simp only [if_true]
      exact ih (fun a ha => h a (by simp; exact Or.inr ha))

/-- C10 (confirmed): when the marker phrase occurs only in the final
colon-separated segment of the startup text (no field separator follows
it), `find_mint_path` fails with the same not-found outcome (`none`)
instead of returning an empty or partial path. -/
theorem C10_marker_last_segment_not_found (line : List Char)
    (hlast : listHas marker ((splitOnChar ':' line).getLastD []) = true)
    (hpre : ∀ seg ∈ (splitOnChar ':' line).dropLast, listHas marker seg = false) :
    find_mint_path line = none := by
  have hlen : ((splitOnChar ':' line).dropWhile
      (fun seg => !(listHas marker seg))).length ≤ 1 :=
    dropWhile_dropLast_length _ _ (fun a ha => by simp [hpre a ha])
  simp only [find_mint_path]
  rw [List.getElem?_eq_none hlen]

/-- C10 witness: marker present but inside the final colon segment. -/
theorem C10_marker_last_segment_not_found_witness :
    listHas marker ((splitOnChar ':' ("foo:Aptos root key path".toList)).getLastD []) = true
      ∧ find_mint_path ("foo:Aptos root key path".toList) = none :=
  ⟨by decide, C10_marker_last_segment_not_found _ (by decide) (by decide)⟩

/-! ### Generic facts about the coordinator model -/

theorem cleanup_ncleanup (env : Env) (hf : Bool) (sc : List Char) :
    ncleanup (cleanup env hf sc).1 = 1 := by
  unfold cleanup
  repeat' split
  all_goals simp [ncleanup, List.countP_cons, isCleanupCall]

theorem cleanup_killNode (env : Env) (hf : Bool) (sc : List Char) :
    Ev.killNode ∈ (cleanup env hf sc).1 := by
  unfold cleanup
  repeat' split
  all_goals simp

theorem cleanup_returns (env : Env) (hf : Bool) (sc : List Char)
    (h : cleanupOk env) : (cleanup env hf sc).2 = true := by
  obtain ⟨h1, h2, h3, h4, h5, h6⟩ := h
  unfold cleanup
  repeat' split
  all_goals simp_all

theorem start_node_ok_no_cleanup (env : Env) (p : Bool × List Char)
    (h : (start_node env).2 = Except.ok p) :
    ncleanup (start_node env).1 = 0 := by
  unfold start_node at h ⊢
  repeat' split at h
  all_goals simp_all [ncleanup, List.countP_cons, isCleanupCall]

theorem ncleanup_pre (env : Env) (t1 t2 : List Ev)
    (h1 : ncleanup t1 = 0) (h2 : ncleanup t2 = 0) :
    ncleanup ((if env.no_compile = true then [] else [Ev.compileRun]) ++ t1 ++ t2) = 0 := by
  unfold ncleanup at h1 h2 ⊢
  by_cases hnc : env.no_compile = true <;>
    simp [hnc, List.countP_append, List.countP_cons, isCleanupCall, h1, h2]

theorem mainRun_eq_tail (env : Env) (t1 t2 : List Ev) (hf : Bool) (sc : List Char)
    (dres : Except Term (Option (List Char)))
    (hcc : env.ctrlc_ok = true)
    (hcomp : compileOk env)
    (hsn : start_node env = (t1, Except.ok (hf, sc)))
    (hdep : (if env.no_publish = true
        then (([] : List Ev), (Except.ok none : Except Term (Option (List Char))))
        else publish env) = (t2, dres)) :
    mainRun env = mainTail env hf sc
      ((if env.no_compile = true then [] else [Ev.compileRun]) ++ t1 ++ t2) dres := by
  unfold mainRun
  simp only [hcc, Bool.true_eq_false, if_false]
  rcases hcomp with hnc | hcs
  · simp only [hnc, if_true]
    rw [hsn, hdep]
  · by_cases hnc : env.no_compile = true
    · simp only [hnc, if_true]
      rw [hsn, hdep]
    · simp only [hnc, Bool.false_eq_true, if_false, hcs]
      rw [hsn, hdep]

theorem mainRun_eq_boot_err (env : Env) (t1 : List Ev) (tm : Term)
    (hcc : env.ctrlc_ok = true)
    (hcomp : compileOk env)
    (hsn : start_node env = (t1, Except.error tm)) :
    mainRun env = ((if env.no_compile = true then [] else [Ev.compileRun]) ++ t1, tm) := by
  unfold mainRun
  simp only [hcc, Bool.true_eq_false, if_false]
  rcases hcomp with hnc | hcs
  · simp only [hnc, if_true]
    rw [hsn]
  · by_cases hnc : env.no_compile = true
    · simp only [hnc, if_true]
      rw [hsn]
    · simp only [hnc, Bool.false_eq_true, if_false, hcs]
      rw [hsn]

theorem mainTail_ncleanup (env : Env) (hf : Bool) (sc : List Char) (pre : List Ev)
    (dres : Except Term (Option (List Char)))
    (hpre : ncleanup pre = 0)
    (hint : env.interactive = true → env.recv_ok = true)
    (he2e : env.interactive = false → env.e2e_spawn_ok = true →
      env.e2e_wait_ok = true)
    (hdres : ∃ r, dres = Except.ok r) :
    ncleanup (mainTail env hf sc pre dres).1 = 1 := by
  obtain ⟨r, rfl⟩ := hdres
  have hcl := cleanup_ncleanup env hf sc
  simp only [ncleanup] at hpre hcl ⊢
  cases r with
  | some m => simp [mainTail, List.countP_append, hpre, hcl]
  | none =>
    by_cases hi : env.interactive = true
    · have hr := hint hi
      simp [mainTail, hi, hr, List.countP_append, List.countP_cons, hpre, hcl,
        isCleanupCall]
    · simp only [Bool.not_eq_true] at hi
      by_cases hes : env.e2e_spawn_ok = false
      · simp [mainTail, hi, hes, List.countP_append, List.countP_cons, hpre, hcl,
          isCleanupCall]
      · simp only [Bool.not_eq_false] at hes
        have hw := he2e hi hes
        simp [mainTail, hi, hes, hw, List.countP_append, List.countP_cons, hpre,
          hcl, isCleanupCall]

/-- C1 counterexample: a run whose bootstrap succeeds but whose deploy
phase hits a missing config file (`fetch_account` fails): the `.expect`
panic aborts the process without ever invoking `cleanup`, so the claim
"cleanup is invoked exactly once ... regardless of whether the deploy
phase succeeds or fails" is false on this run. -/
theorem C1_cleanup_once_cex :
    (start_node { baseEnv with no_faucet := true, fetch_ok := false }).2
        = Except.ok (false, scenA)
      ∧ (mainRun { baseEnv with no_faucet := true, fetch_ok := false }).2
        = Term.panicked
      ∧ ncleanup (mainRun { baseEnv with no_faucet := true, fetch_ok := false }).1
        = 0 := by
  decide

/-- C1 (corrected): for every run that reaches and completes Bootstrap
successfully, `cleanup` is invoked exactly once before the coordinator
terminates — provided the phases after bootstrap do not panic: the
deploy phase (when run) reads the account and obtains both tool exit
statuses, the interactive wait (when run) receives its signal, and
waiting on a spawned test runner succeeds.  (Deployment failure
reported by the publish exit status, a test-runner spawn failure, a
non-zero test exit status, skipped phases, and clean interactive exit
are all covered; the panicking operations are the amendment.) -/
theorem C1_cleanup_once_amended (env : Env) (hfsc : Bool × List Char)
    (hcc : env.ctrlc_ok = true)
    (hcomp : compileOk env)
    (hboot : (start_node env).2 = Except.ok hfsc)
    (hdeploy : env.no_publish = false →
      env.fetch_ok = true ∧ env.fund_status.isSome = true
        ∧ env.publish_status.isSome = true)
    (hint : env.interactive = true → env.recv_ok = true)
    (he2e : env.interactive = false → env.e2e_spawn_ok = true →
      env.e2e_wait_ok = true) :
    ncleanup (mainRun env).1 = 1 := by
  obtain ⟨hf, sc⟩ := hfsc
  rcases hsnp : start_node env with ⟨t1, r1⟩
  rw [hsnp] at hboot
  simp only at hboot
  subst hboot
  have hsn0 : ncleanup t1 = 0 := by
    have h := start_node_ok_no_cleanup env (hf, sc) (by rw [hsnp])
    rwa [hsnp] at h
  by_cases hnp : env.no_publish = true
  · rw [mainRun_eq_tail env t1 [] hf sc (Except.ok none) hcc hcomp hsnp
      (by rw [if_pos hnp])]
    exact mainTail_ncleanup env hf sc _ _
      (ncleanup_pre env t1 [] hsn0 (by decide)) hint he2e ⟨none, rfl⟩
  · simp only [Bool.not_eq_true] at hnp
    obtain ⟨hfetch, hfund, hpubs⟩ := hdeploy hnp
    obtain ⟨sf, hsf⟩ := Option.isSome_iff_exists.mp hfund
    obtain ⟨sp, hsp⟩ := Option.isSome_iff_exists.mp hpubs
    have hpub : publish env = ([Ev.fetchAccount, Ev.fundRun, Ev.publishRun],
        Except.ok (if sp = true then none else some pubFailMsg)) := by
      unfold publish
      cases sp <;> simp [hfetch, hsf, hsp]
    rw [mainRun_eq_tail env t1 [Ev.fetchAccount, Ev.fundRun, Ev.publishRun] hf sc
      _ hcc hcomp hsnp (by rw [if_neg (by simp [hnp]: ¬env.no_publish = true)]; exact hpub)]
    exact mainTail_ncleanup env hf sc _ _
      (ncleanup_pre env t1 _ hsn0 (by decide)) hint he2e ⟨_, rfl⟩

/-- C1 witness: the all-success run invokes cleanup exactly once. -/
theorem C1_cleanup_once_amended_witness : ncleanup (mainRun baseEnv).1 = 1 :=
  C1_cleanup_once_amended baseEnv (true, scenA) rfl (Or.inr rfl) (by decide)
    (fun _ => ⟨rfl, rfl, rfl⟩) (fun _ => rfl) (fun _ _ => rfl)

/-- C2 (code bug): after the validator child is spawned, a failure to
read the 450-byte startup snapshot — and likewise a snapshot without
the credential marker — aborts the coordinator through a plain
`.expect` panic: the process terminates with a non-zero code but no
kill of the already-spawned validator is ever attempted, contradicting
the claim (and spec §7, §4.5, Scenario D). -/
theorem C2_kill_before_fatal_exit_violated :
    ((mainRun { baseEnv with read_ok := false }).2 = Term.panicked
      ∧ Ev.spawnNode ∈ (mainRun { baseEnv with read_ok := false }).1
      ∧ Ev.killNode ∉ (mainRun { baseEnv with read_ok := false }).1
      ∧ Ev.cleanupCall ∉ (mainRun { baseEnv with read_ok := false }).1)
    ∧ ((mainRun { baseEnv with snapshot := "Waypoint: no marker".toList }).2
        = Term.panicked
      ∧ Ev.spawnNode ∈ (mainRun { baseEnv with snapshot := "Waypoint: no marker".toList }).1
      ∧ Ev.killNode ∉ (mainRun { baseEnv with snapshot := "Waypoint: no marker".toList }).1) := by
  decide

/-- C5 (confirmed): when the faucet is requested and its spawn fails
during bootstrap, `cleanup` is invoked (exactly once) on the running
validator — the kill of the validator is attempted — before the
coordinator terminates fatally (exit 1, or a panic if that cleanup
itself fails). -/
theorem C5_faucet_fail_validator_teardown (env : Env)
    (hcc : env.ctrlc_ok = true)
    (hcomp : compileOk env)
    (hns : env.node_spawn_ok = true)
    (hread : env.read_ok = true)
    (hmint : (find_mint_path env.snapshot).isSome = true)
    (hnf : env.no_faucet = false)
    (hfs : env.faucet_spawn_ok = false) :
    Ev.killNode ∈ (mainRun env).1
      ∧ ncleanup (mainRun env).1 = 1
      ∧ ((mainRun env).2 = Term.exited 1 ∨ (mainRun env).2 = Term.panicked) := by
  obtain ⟨m, hm⟩ := Option.isSome_iff_exists.mp hmint
  have hsn : start_node env = ([Ev.spawnNode, Ev.readSnapshot, Ev.findMint,
      Ev.spawnFaucet] ++ (cleanup env false env.snapshot).1,
      Except.error (if (cleanup env false env.snapshot).2 = true
        then Term.exited 1 else Term.panicked)) := by
    unfold start_node
    simp [hns, hread, hm, hnf, hfs]
  rw [mainRun_eq_boot_err env _ _ hcc hcomp hsn]
  refine ⟨?_, ?_, ?_⟩
  · simp [cleanup_killNode env false env.snapshot]
  · have hcl := cleanup_ncleanup env false env.snapshot
    have h4 : ncleanup [Ev.spawnNode, Ev.readSnapshot, Ev.findMint,
        Ev.spawnFaucet] = 0 := by decide
    unfold ncleanup at hcl h4 ⊢
    by_cases hnc : env.no_compile = true <;>
      simp [hnc, List.countP_append, List.countP_cons, isCleanupCall, hcl, h4]
  · by_cases hok : (cleanup env false env.snapshot).2 = true <;> simp [hok]

/-- C5 witness: a concrete run with everything healthy except the
faucet spawn. -/
theorem C5_faucet_fail_validator_teardown_witness :
    Ev.killNode ∈ (mainRun { baseEnv with faucet_spawn_ok := false }).1
      ∧ ncleanup (mainRun { baseEnv with faucet_spawn_ok := false }).1 = 1
      ∧ ((mainRun { baseEnv with faucet_spawn_ok := false }).2 = Term.exited 1
          ∨ (mainRun { baseEnv with faucet_spawn_ok := false }).2 = Term.panicked) :=
  C5_faucet_fail_validator_teardown { baseEnv with faucet_spawn_ok := false }
    rfl (Or.inr rfl) rfl rfl (by decide) rfl rfl

/-- C6 (confirmed): when the account is read and both tool invocations
yield an exit status, `publish` fails exactly when the publish
invocation's status is non-zero and succeeds when it is zero; flipping
the funding invocation's exit status never changes the outcome. -/
theorem C6_publish_outcome (env : Env) (sf sp : Bool)
    (hfetch : env.fetch_ok = true)
    (hfund : env.fund_status = some sf)
    (hpub : env.publish_status = some sp) :
    (publish env).2 = Except.ok (if sp = true then none else some pubFailMsg)
      ∧ (publish { env with fund_status := some (!sf) }).2 = (publish env).2 := by
  unfold publish
  cases sp <;> simp [hfetch, hfund, hpub]

/-- C6 witness: concrete successful deployment. -/
theorem C6_publish_outcome_witness : (publish baseEnv).2 = Except.ok none := by
  have h := (C6_publish_outcome baseEnv true true rfl rfl rfl).1
  simpa using h

theorem start_node_ok_of_bootOk (env : Env) (h : bootOk env) :
    ∃ t1 hf, start_node env = (t1, Except.ok (hf, env.snapshot)) := by
  obtain ⟨hns, hread, hmint, hfc⟩ := h
  obtain ⟨m, hm⟩ := Option.isSome_iff_exists.mp hmint
  by_cases hnf : env.no_faucet = false
  · rcases hfc with hnft | hfok
    · rw [hnf] at hnft
      exact absurd hnft (by simp)
    · exact ⟨[Ev.spawnNode, Ev.readSnapshot, Ev.findMint, Ev.spawnFaucet], true,
        by unfold start_node; simp [hns, hread, hm, hnf, hfok]⟩
  · simp only [Bool.not_eq_false] at hnf
    exact ⟨[Ev.spawnNode, Ev.readSnapshot, Ev.findMint], false,
      by unfold start_node; simp [hns, hread, hm, hnf]⟩

theorem deploy_pair_of_deployOk (env : Env) (h : deployOk env) :
    ∃ t2, (if env.no_publish = true then (([] : List Ev),
        (Except.ok none : Except Term (Option (List Char))))
      else publish env) = (t2, Except.ok none) := by
  by_cases hnp : env.no_publish = true
  · exact ⟨[], by rw [if_pos hnp]⟩
  · rcases h with hnpt | ⟨hfetch, hfund, hpub⟩
    · exact absurd hnpt hnp
    · obtain ⟨sf, hsf⟩ := Option.isSome_iff_exists.mp hfund
      exact ⟨[Ev.fetchAccount, Ev.fundRun, Ev.publishRun],
        by rw [if_neg hnp]; unfold publish; simp [hfetch, hsf, hpub]⟩

theorem mainTail_term_all_ok (env : Env) (hf : Bool) (sc : List Char)
    (pre : List Ev) (hcl : (cleanup env hf sc).2 = true)
    (hint : env.interactive = true → env.recv_ok = true)
    (he2e : env.interactive = false →
      env.e2e_spawn_ok = true ∧ env.e2e_wait_ok = true) :
    (mainTail env hf sc pre (Except.ok none)).2 = Term.exited 0 := by
  by_cases hi : env.interactive = true
  · have hr := hint hi
    simp [mainTail, hi, hr, hcl]
  · simp only [Bool.not_eq_true] at hi
    obtain ⟨hes, hw⟩ := he2e hi
    simp [mainTail, hi, hes, hw, hcl]

theorem mainRun_compile_fail (env : Env) (hcc : env.ctrlc_ok = true)
    (hnc : env.no_compile = false) (hcs : env.compile_status = some false) :
    mainRun env = ([Ev.compileRun], Term.exited 1) := by
  unfold mainRun
  simp [hcc, hnc, hcs]

/-- C7 counterexample: a run that fails while waiting on the test-runner
process terminates by panic (Rust exit code 101), not with exit code 1
as the claim states — and not 0. -/
theorem C7_exit_codes_cex :
    Ev.spawnE2e ∈ (mainRun { baseEnv with e2e_wait_ok := false }).1
      ∧ Ev.waitE2e ∈ (mainRun { baseEnv with e2e_wait_ok := false }).1
      ∧ (mainRun { baseEnv with e2e_wait_ok := false }).2 = Term.panicked
      ∧ (mainRun { baseEnv with e2e_wait_ok := false }).2 ≠ Term.exited 1
      ∧ (mainRun { baseEnv with e2e_wait_ok := false }).2 ≠ Term.exited 0 := by
  decide

/-- C7 (corrected): the coordinator exits 0 on full success or clean
interactive exit; it exits 1 on compile failure, validator spawn
failure, faucet spawn failure, deployment failure, and test-runner
spawn failure (the exit-1 failures after bootstrap require the teardown
itself to succeed, since a failing teardown panics); but a failure
while waiting on the test-runner process terminates by panic (exit code
101), not with exit code 1 — the amendment. -/
theorem C7_exit_codes_amended (env : Env) (hcc : env.ctrlc_ok = true) :
    (compileOk env → bootOk env → deployOk env →
      (env.interactive = true → env.recv_ok = true) →
      (env.interactive = false → env.e2e_spawn_ok = true ∧ env.e2e_wait_ok = true) →
      cleanupOk env → (mainRun env).2 = Term.exited 0)
  ∧ (env.no_compile = false → env.compile_status = some false →
      (mainRun env).2 = Term.exited 1)
  ∧ (compileOk env → env.node_spawn_ok = false → (mainRun env).2 = Term.exited 1)
  ∧ (compileOk env → env.node_spawn_ok = true → env.read_ok = true →
      (find_mint_path env.snapshot).isSome = true → env.no_faucet = false →
      env.faucet_spawn_ok = false → cleanupOk env →
      (mainRun env).2 = Term.exited 1)
  ∧ (compileOk env → bootOk env → env.no_publish = false →
      env.fetch_ok = true → env.fund_status.isSome = true →
      env.publish_status = some false → cleanupOk env →
      (mainRun env).2 = Term.exited 1)
  ∧ (compileOk env → bootOk env → deployOk env → env.interactive = false →
      env.e2e_spawn_ok = false → cleanupOk env →
      (mainRun env).2 = Term.exited 1)
  ∧ (compileOk env → bootOk env → deployOk env → env.interactive = false →
      env.e2e_spawn_ok = true → env.e2e_wait_ok = false →
      (mainRun env).2 = Term.panicked) := by
  refine ⟨?_, ?_, ?_, ?_, ?_, ?_, ?_⟩
  · intro hcomp hboot hdep hint he2e hclok
    obtain ⟨t1, hf, hsn⟩ := start_node_ok_of_bootOk env hboot
    obtain ⟨t2, hdp⟩ := deploy_pair_of_deployOk env hdep
    rw [mainRun_eq_tail env t1 t2 hf env.snapshot _ hcc hcomp hsn hdp]
    exact mainTail_term_all_ok env hf env.snapshot _
      (cleanup_returns env hf env.snapshot hclok) hint he2e
  · intro hnc hcs
    rw [mainRun_compile_fail env hcc hnc hcs]
  · intro hcomp hns
    have hsn : start_node env = ([Ev.spawnNode], Except.error (Term.exited 1)) := by
      unfold start_node
      simp [hns]
    rw [mainRun_eq_boot_err env _ _ hcc hcomp hsn]
  · intro hcomp hns hread hmint hnf hfs hclok
    obtain ⟨m, hm⟩ := Option.isSome_iff_exists.mp hmint
    have hcl := cleanup_returns env false env.snapshot hclok
    have hsn : start_node env = ([Ev.spawnNode, Ev.readSnapshot, Ev.findMint,
        Ev.spawnFaucet] ++ (cleanup env false env.snapshot).1,
        Except.error (Term.exited 1)) := by
      unfold start_node
      simp [hns, hread, hm, hnf, hfs, hcl]
    rw [mainRun_eq_boot_err env _ _ hcc hcomp hsn]
  · intro hcomp hboot hnp hfetch hfund hpub hclok
    obtain ⟨t1, hf, hsn⟩ := start_node_ok_of_bootOk env hboot
    obtain ⟨sf, hsf⟩ := Option.isSome_iff_exists.mp hfund
    have hdp : (if env.no_publish = true then (([] : List Ev),
        (Except.ok none : Except Term (Option (List Char)))) else publish env)
        = ([Ev.fetchAccount, Ev.fundRun, Ev.publishRun],
           Except.ok (some pubFailMsg)) := by
      rw [if_neg (by simp [hnp])]
      unfold publish
      simp [hfetch, hsf, hpub]
    rw [mainRun_eq_tail env t1 _ hf env.snapshot _ hcc hcomp hsn hdp]
    simp [mainTail, cleanup_returns env hf env.snapshot hclok]
  · intro hcomp hboot hdep hi hes hclok
    obtain ⟨t1, hf, hsn⟩ := start_node_ok_of_bootOk env hboot
    obtain ⟨t2, hdp⟩ := deploy_pair_of_deployOk env hdep
    rw [mainRun_eq_tail env t1 t2 hf env.snapshot _ hcc hcomp hsn hdp]
    simp [mainTail, hi, hes, cleanup_returns env hf env.snapshot hclok]
  · intro hcomp hboot hdep hi hes hw
    obtain ⟨t1, hf, hsn⟩ := start_node_ok_of_bootOk env hboot
    obtain ⟨t2, hdp⟩ := deploy_pair_of_deployOk env hdep
    rw [mainRun_eq_tail env t1 t2 hf env.snapshot _ hcc hcomp hsn hdp]
    simp [mainTail, hi, hes, hw]

/-- C7 witness: full success exits 0; compile failure exits 1. -/
theorem C7_exit_codes_amended_witness :
    (mainRun baseEnv).2 = Term.exited 0
      ∧ (mainRun { baseEnv with compile_status := some false }).2 = Term.exited 1 :=
  ⟨(C7_exit_codes_amended baseEnv rfl).1 (Or.inr rfl)
      ⟨rfl, rfl, by decide, Or.inr rfl⟩ (Or.inr ⟨rfl, rfl, rfl⟩)
      (fun _ => rfl) (fun _ => ⟨rfl, rfl⟩) ⟨rfl, rfl, rfl, rfl, rfl, rfl⟩,
   (C7_exit_codes_amended { baseEnv with compile_status := some false } rfl).2.1
      rfl rfl⟩

/-- C8 counterexample: on a deployment-failure run whose teardown hits a
failing validator kill, the kill failure panics: the faucet is never
killed (remaining teardown steps are skipped) and the process ends with
the panic code instead of the run's original exit code 1. -/
theorem C8_cleanup_failure_cex :
    Ev.cleanupCall ∈ (mainRun envDeployFailKillFail).1
      ∧ Ev.killNode ∈ (mainRun envDeployFailKillFail).1
      ∧ Ev.killFaucet ∉ (mainRun envDeployFailKillFail).1
      ∧ (mainRun envDeployFailKillFail).2 = Term.panicked
      ∧ (mainRun envDeployFailKillFail).2 ≠ Term.exited 1 := by
  decide

theorem cleanup_fails_of_step (env : Env) (hf : Bool) (sc : List Char)
    (h : cleanupStepFails env hf) : (cleanup env hf sc).2 = false := by
  unfold cleanupStepFails at h
  unfold cleanup
  repeat' split
  all_goals simp_all

theorem start_node_ok_faucet_flag (env : Env) (h : bootOk env) :
    ∃ t1, start_node env = (t1, Except.ok (!env.no_faucet, env.snapshot)) := by
  obtain ⟨hns, hread, hmint, hfc⟩ := h
  obtain ⟨m, hm⟩ := Option.isSome_iff_exists.mp hmint
  by_cases hnf : env.no_faucet = false
  · rcases hfc with hnft | hfok
    · rw [hnf] at hnft
      exact absurd hnft (by simp)
    · exact ⟨[Ev.spawnNode, Ev.readSnapshot, Ev.findMint, Ev.spawnFaucet],
        by unfold start_node; simp [hns, hread, hm, hnf, hfok]⟩
  · simp only [Bool.not_eq_false] at hnf
    exact ⟨[Ev.spawnNode, Ev.readSnapshot, Ev.findMint],
      by unfold start_node; simp [hns, hread, hm, hnf]⟩

/-- C8 (corrected): a failure in any teardown step that kills or waits
on a child process is reported through a panic that aborts the
teardown: the steps after the failing one are not attempted (first four
conjuncts: the exact teardown trace for a failing validator kill,
validator wait, faucet kill and faucet wait, for any faucet flag and
scanned output where the step exists), and on every failure path on
which teardown runs — deployment failure, test-runner spawn failure,
and faucet spawn failure during bootstrap — the process terminates with
the panic code in place of the run's original exit code 1 (last three
conjuncts). -/
theorem C8_cleanup_failure_panics_amended (env : Env) :
    (∀ hf sc, env.kill_node_ok = false →
       cleanup env hf sc = ([Ev.cleanupCall, Ev.killNode], false))
  ∧ (∀ hf sc, env.kill_node_ok = true → env.wait_node_ok = false →
       cleanup env hf sc = ([Ev.cleanupCall, Ev.killNode, Ev.waitNode], false))
  ∧ (∀ sc, env.kill_node_ok = true → env.wait_node_ok = true →
       env.kill_faucet_ok = false →
       cleanup env true sc
         = ([Ev.cleanupCall, Ev.killNode, Ev.waitNode, Ev.killFaucet], false))
  ∧ (∀ sc, env.kill_node_ok = true → env.wait_node_ok = true →
       env.kill_faucet_ok = true → env.wait_faucet_ok = false →
       cleanup env true sc
         = ([Ev.cleanupCall, Ev.killNode, Ev.waitNode, Ev.killFaucet,
             Ev.waitFaucet], false))
  ∧ (env.ctrlc_ok = true → compileOk env → bootOk env →
       env.no_publish = false → env.fetch_ok = true →
       env.fund_status.isSome = true → env.publish_status = some false →
       cleanupStepFails env (!env.no_faucet) →
       (mainRun env).2 = Term.panicked)
  ∧ (env.ctrlc_ok = true → compileOk env → bootOk env → deployOk env →
       env.interactive = false → env.e2e_spawn_ok = false →
       cleanupStepFails env (!env.no_faucet) →
       (mainRun env).2 = Term.panicked)
  ∧ (env.ctrlc_ok = true → compileOk env → env.node_spawn_ok = true →
       env.read_ok = true → (find_mint_path env.snapshot).isSome = true →
       env.no_faucet = false → env.faucet_spawn_ok = false →
       cleanupStepFails env false →
       (mainRun env).2 = Term.panicked) := by
  refine ⟨?_, ?_, ?_, ?_, ?_, ?_, ?_⟩
  · intro hf sc h
    unfold cleanup
    simp [h]
  · intro hf sc h1 h2
    unfold cleanup
    simp [h1, h2]
  · intro sc h1 h2 h3
    unfold cleanup
    simp [h1, h2, h3]
  · intro sc h1 h2 h3 h4
    unfold cleanup
    simp [h1, h2, h3, h4]
  · intro hcc hcomp hboot hnp hfetch hfund hpub hstep
    obtain ⟨t1, hsn⟩ := start_node_ok_faucet_flag env hboot
    obtain ⟨sf, hsf⟩ := Option.isSome_iff_exists.mp hfund
    have hdp : (if env.no_publish = true then (([] : List Ev),
        (Except.ok none : Except Term (Option (List Char)))) else publish env)
        = ([Ev.fetchAccount, Ev.fundRun, Ev.publishRun],
           Except.ok (some pubFailMsg)) := by
      rw [if_neg (by simp [hnp])]
      unfold publish
      simp [hfetch, hsf, hpub]
    rw [mainRun_eq_tail env t1 _ (!env.no_faucet) env.snapshot _ hcc hcomp hsn hdp]
    have hcl := cleanup_fails_of_step env (!env.no_faucet) env.snapshot hstep
    simp [mainTail, hcl]
  · intro hcc hcomp hboot hdep hi hes hstep
    obtain ⟨t1, hsn⟩ := start_node_ok_faucet_flag env hboot
    obtain ⟨t2, hdp⟩ := deploy_pair_of_deployOk env hdep
    rw [mainRun_eq_tail env t1 t2 (!env.no_faucet) env.snapshot _ hcc hcomp hsn hdp]
    have hcl := cleanup_fails_of_step env (!env.no_faucet) env.snapshot hstep
    simp [mainTail, hi, hes, hcl]
  · intro hcc hcomp hns hread hmint hnf hfs hstep
    obtain ⟨m, hm⟩ := Option.isSome_iff_exists.mp hmint
    have hcl := cleanup_fails_of_step env false env.snapshot hstep
    have hsn : start_node env = ([Ev.spawnNode, Ev.readSnapshot, Ev.findMint,
        Ev.spawnFaucet] ++ (cleanup env false env.snapshot).1,
        Except.error Term.panicked) := by
      unfold start_node
      simp [hns, hread, hm, hnf, hfs, hcl]
    rw [mainRun_eq_boot_err env _ _ hcc hcomp hsn]

/-- C8 witness: on the concrete deployment-failure run whose validator
kill fails, the teardown trace stops at the kill and the run panics. -/
theorem C8_cleanup_failure_panics_amended_witness :
    cleanup envDeployFailKillFail true scenA
        = ([Ev.cleanupCall, Ev.killNode], false)
      ∧ (mainRun envDeployFailKillFail).2 = Term.panicked :=
  ⟨(C8_cleanup_failure_panics_amended envDeployFailKillFail).1 true scenA rfl,
   (C8_cleanup_failure_panics_amended envDeployFailKillFail).2.2.2.2.1 rfl
     (Or.inr rfl) ⟨rfl, rfl, by decide, Or.inr rfl⟩ rfl rfl rfl rfl
     (Or.inl rfl)⟩

/-- C9 (confirmed): when logging is enabled and every teardown step
succeeds, shutting down a network with a faucet creates exactly one log
file, whose content is the bootstrap snapshot, then the drained
validator output, then the drained faucet error-stream output,
concatenated in that order. -/
theorem C9_log_artifact (env : Env) (scanned : List Char)
    (hlog : env.log_node = true)
    (h1 : env.kill_node_ok = true) (h2 : env.wait_node_ok = true)
    (h3 : env.kill_faucet_ok = true) (h4 : env.wait_faucet_ok = true)
    (h5 : env.log_create_ok = true) (h6 : env.log_write_ok = true) :
    logWrites (cleanup env true scanned).1
        = [scanned ++ env.node_drain ++ env.faucet_drain]
      ∧ (cleanup env true scanned).1.countP isCreateLog = 1 := by
  unfold cleanup
  simp [hlog, h1, h2, h3, h4, h5, h6, logWrites, List.countP_cons, isCreateLog]

/-- C9 witness: a concrete logging teardown. -/
theorem C9_log_artifact_witness :
    logWrites (cleanup { baseEnv with log_node := true } true scenA).1
        = [scenA ++ "node out".toList ++ "faucet err".toList]
      ∧ (cleanup { baseEnv with log_node := true } true scenA).1.countP
          isCreateLog = 1 :=
  C9_log_artifact { baseEnv with log_node := true } scenA rfl rfl rfl rfl rfl
    rfl rfl
